import Mathlib

/-!
Verification of the `bevy_fake_interior` repository:
the `FakeInteriorMaterial` / `FakeInteriorMaterialUniform` material glue
(`src/lib.rs`) and the per-fragment "room illusion" routine of its
fragment shader.

Numeric carrier: the Rust/WGSL `f32` values are modelled as exact
rationals (`ℚ`); a `Vec2` is a pair of rationals.  The fragment-shader
source (`shaders/fake_interior.wgsl`) is referenced by the crate but its
text is not part of the repository, so the per-fragment routine is
modelled from the specification's algorithm description; those
definitions carry a doc comment starting `Modelled from the spec:`.
-/

/-- A `Vec2` of `f32`, modelled as a pair of exact rationals. -/
abbrev Vec2 : Type := ℚ × ℚ

/-- Build a `Vec2` from its two components, mirroring `Vec2::new`. -/
def Vec2.new (x y : ℚ) : Vec2 := (x, y)

/-- `FakeInteriorMaterial` from `src/lib.rs`: the authored material
extension with its six parameters, in source order. -/
structure FakeInteriorMaterial where
  atlas_rooms : Vec2
  rooms : Vec2
  depth : ℚ
  room_seed : ℚ
  emission_seed : ℚ
  emission_threshold : ℚ

/-- `impl Default for FakeInteriorMaterial` from `src/lib.rs`. -/
def FakeInteriorMaterial.default : FakeInteriorMaterial :=
  { atlas_rooms := Vec2.new 1 1
    rooms := Vec2.new 1 1
    depth := 1/2
    room_seed := 1
    emission_seed := 1
    emission_threshold := 1/2 }

/-- `FakeInteriorMaterialUniform` from `src/lib.rs`: the fixed-layout
uniform record handed to the GPU, fields in source order. -/
structure FakeInteriorMaterialUniform where
  atlas_rooms : Vec2
  rooms : Vec2
  depth : ℚ
  room_seed : ℚ
  emission_seed : ℚ
  emission_threshold : ℚ

/-- The field types that occur in the two records: a 2-component float
vector or a scalar float. -/
inductive ShaderFieldTy where
  | vec2f : ShaderFieldTy
  | f32 : ShaderFieldTy
deriving DecidableEq

/-- Field names and types of `FakeInteriorMaterial`, transcribed in
declaration order from `src/lib.rs`. -/
def FakeInteriorMaterial.fieldLayout : List (String × ShaderFieldTy) :=
  [ ("atlas_rooms", ShaderFieldTy.vec2f)
  , ("rooms", ShaderFieldTy.vec2f)
  , ("depth", ShaderFieldTy.f32)
  , ("room_seed", ShaderFieldTy.f32)
  , ("emission_seed", ShaderFieldTy.f32)
  , ("emission_threshold", ShaderFieldTy.f32) ]

/-- Field names and types of `FakeInteriorMaterialUniform`, transcribed
in declaration order from `src/lib.rs`. -/
def FakeInteriorMaterialUniform.fieldLayout : List (String × ShaderFieldTy) :=
  [ ("atlas_rooms", ShaderFieldTy.vec2f)
  , ("rooms", ShaderFieldTy.vec2f)
  , ("depth", ShaderFieldTy.f32)
  , ("room_seed", ShaderFieldTy.f32)
  , ("emission_seed", ShaderFieldTy.f32)
  , ("emission_threshold", ShaderFieldTy.f32) ]

/-- The §3 parameter block as the spec words it: two 2-component float
vectors, then four scalar floats. -/
def specParamBlock : List ShaderFieldTy :=
  [ ShaderFieldTy.vec2f, ShaderFieldTy.vec2f
  , ShaderFieldTy.f32, ShaderFieldTy.f32, ShaderFieldTy.f32, ShaderFieldTy.f32 ]

/-- `as_bind_group_shader_type` from `src/lib.rs`: builds the uniform
record from the material, copying each field; the `images` render-asset
table parameter is unused by the body.  `α` stands for the
`RenderAssets<Image>` table type. -/
def as_bind_group_shader_type {α : Type} (m : FakeInteriorMaterial) (_images : α) :
    FakeInteriorMaterialUniform :=
  { atlas_rooms := m.atlas_rooms
    rooms := m.rooms
    depth := m.depth
    room_seed := m.room_seed
    emission_seed := m.emission_seed
    emission_threshold := m.emission_threshold }

/-! ### The Room Illusion Shader

The crate points both the forward and the deferred fragment stage at
`shaders/fake_interior.wgsl`; that file's text is not part of the
repository, so the definitions below are modelled from the
specification's §4.1 algorithm.  All numbers are exact rationals. -/

/-- The minimum epsilon used to guard divisors (§7). -/
def eps : ℚ := 1/10000

/-- Modelled from the spec: the minimum-epsilon clamp guarding every
division in the missing fragment shader — a divisor smaller in magnitude
than `eps` is replaced by `eps` with the divisor's sign (`0` counts as
nonnegative). -/
def epsClamp (b : ℚ) : ℚ :=
  if 0 ≤ b then max b eps else min b (-eps)

/-- Modelled from the spec: guarded division — every division performed
by the missing fragment shader routes through this clamp. -/
def divE (a b : ℚ) : ℚ := a / epsClamp b

/-- Per-draw render state (frame number, draw order) that a *non*-pure
shader could observe; the routine must not depend on it (§5, §8). -/
structure RenderCtx where
  frame : ℕ
  drawOrder : ℕ

/-- Modelled from the spec: the deterministic pseudo-random hash of the
missing fragment shader (sine-fract family, §9: exact constants are an
implementation choice); maps a cell index and a seed to a value in
`[0,1)`.  It takes the render context only to state frame/draw-order
independence and does not consult it. -/
def hash12 (_ctx : RenderCtx) (cellX cellY : ℤ) (seed : ℚ) : ℚ :=
  Int.fract (((cellX : ℚ) * 129898/10000 + (cellY : ℚ) * 78233/1000 + seed)
    * 437585453/10000)

/-- Modelled from the spec: §4.1 step 1 — scale `uv` by `rooms` and take
the integer part (floor semantics) as the cell index. -/
def cellIndex (uv rooms : Vec2) : ℤ × ℤ :=
  (⌊uv.1 * rooms.1⌋, ⌊uv.2 * rooms.2⌋)

/-- Modelled from the spec: §4.1 step 1 — the fractional part of the
scaled `uv` is the local coordinate inside the cell, in `[0,1)²`. -/
def cellLocalUV (uv rooms : Vec2) : Vec2 :=
  (Int.fract (uv.1 * rooms.1), Int.fract (uv.2 * rooms.2))

/-- Modelled from the spec: §4.1 step 2 — hash `(cell_x, cell_y,
room_seed)` to pick one atlas cell index in
`[0, atlas_rooms.x) × [0, atlas_rooms.y)`. -/
def atlasCellSelect (ctx : RenderCtx) (cell : ℤ × ℤ) (room_seed : ℚ)
    (atlas_rooms : Vec2) : ℤ × ℤ :=
  (⌊hash12 ctx cell.1 cell.2 room_seed * atlas_rooms.1⌋,
   ⌊hash12 ctx cell.2 cell.1 (room_seed + 1) * atlas_rooms.2⌋)

/-- Modelled from the spec: §4.1 step 5 — the selected atlas cell index
becomes a base offset in atlas space (index over atlas dimensions, the
division guarded). -/
def atlasOffset (ctx : RenderCtx) (atlas_rooms : Vec2) (cell : ℤ × ℤ)
    (room_seed : ℚ) : Vec2 :=
  (divE ((atlasCellSelect ctx cell room_seed atlas_rooms).1 : ℚ) atlas_rooms.1,
   divE ((atlasCellSelect ctx cell room_seed atlas_rooms).2 : ℚ) atlas_rooms.2)

/-- Modelled from the spec: §4.1 step 3 — intersect the tangent-space
view ray, starting at the fragment's local cell coordinate on the
surface plane `z = 0`, against the virtual box spanning the cell in
`(x,y)` and reaching `z = -depth`; per axis the plane facing the ray
direction is used, the nearest forward hit is taken, and the hit's
`(x,y)` is the parallax-corrected local UV. -/
def boxIntersect (depth : ℚ) (p : Vec2) (d : ℚ × ℚ × ℚ) : Vec2 :=
  let tz := divE (-depth) d.2.2
  let tx := divE ((if 0 ≤ d.1 then 1 else 0) - p.1) d.1
  let ty := divE ((if 0 ≤ d.2.1 then 1 else 0) - p.2) d.2.1
  let t := min tz (min tx ty)
  (p.1 + t * d.1, p.2 + t * d.2.1)

/-- Modelled from the spec: §4.1 step 5 — final atlas UV: atlas-cell base
offset plus the refined local UV scaled into one atlas cell's footprint. -/
def atlasCoord (ctx : RenderCtx) (atlas_rooms : Vec2) (cell : ℤ × ℤ)
    (room_seed : ℚ) (localUV : Vec2) : Vec2 :=
  ((atlasOffset ctx atlas_rooms cell room_seed).1 + divE localUV.1 atlas_rooms.1,
   (atlasOffset ctx atlas_rooms cell room_seed).2 + divE localUV.2 atlas_rooms.2)

/-- Modelled from the spec: §4.1 step 6 — the emission hash of
`(cell_x, cell_y, emission_seed)`, a value in `[0,1)`. -/
def emissionHash (ctx : RenderCtx) (cell : ℤ × ℤ) (emission_seed : ℚ) : ℚ :=
  hash12 ctx cell.1 cell.2 emission_seed

/-- Modelled from the spec: §4.1 step 6 — the per-cell gate decision:
the cell is lit unless the emission hash exceeds the threshold. -/
def emissionLit (ctx : RenderCtx) (cell : ℤ × ℤ)
    (emission_seed emission_threshold : ℚ) : Bool :=
  decide (emissionHash ctx cell emission_seed ≤ emission_threshold)

/-- Modelled from the spec: §4.1 step 6 — gated emissive contribution:
zero when the emission hash exceeds the threshold, otherwise the sampled
emissive value scaled by the intensity multiplier. -/
def gatedEmission (ctx : RenderCtx) (cell : ℤ × ℤ)
    (emission_seed emission_threshold intensity sample : ℚ) : ℚ :=
  if emission_threshold < emissionHash ctx cell emission_seed then 0
  else intensity * sample

/-- Per-fragment result of the room illusion routine: the atlas
coordinate each texture layer is sampled at, the base-color and normal
samples, and the gated emissive contribution. -/
structure FragmentOutput where
  colorUV : Vec2
  normalUV : Vec2
  emissiveUV : Vec2
  baseSample : ℚ
  normalSample : ℚ
  emissive : ℚ

/-- Modelled from the spec: the whole §4.1 per-fragment routine of the
missing fragment shader — cell indexing, atlas cell selection, virtual
box intersection, sampling (textures abstracted as functions of the
atlas UV) and emission gating.  The shader's parameters are the uniform
record of `src/lib.rs`. -/
def shadeFragment (ctx : RenderCtx) (params : FakeInteriorMaterialUniform)
    (uv : Vec2) (tangent_view_dir : ℚ × ℚ × ℚ)
    (baseColorTex normalTex emissiveTex : Vec2 → ℚ) (intensity : ℚ) :
    FragmentOutput :=
  let cell := cellIndex uv params.rooms
  let localUV := cellLocalUV uv params.rooms
  let refined := boxIntersect params.depth localUV tangent_view_dir
  let auv := atlasCoord ctx params.atlas_rooms cell params.room_seed refined
  { colorUV := auv
    normalUV := auv
    emissiveUV := auv
    baseSample := baseColorTex auv
    normalSample := normalTex auv
    emissive := gatedEmission ctx cell params.emission_seed
      params.emission_threshold intensity (emissiveTex auv) }

/-! ### Helper lemmas -/

/-- The hash lands at or above `0`. -/
theorem hash12_nonneg (ctx : RenderCtx) (cx cy : ℤ) (seed : ℚ) :
    0 ≤ hash12 ctx cx cy seed :=
  Int.fract_nonneg _

/-- The hash lands strictly below `1`. -/
theorem hash12_lt_one (ctx : RenderCtx) (cx cy : ℤ) (seed : ℚ) :
    hash12 ctx cx cy seed < 1 :=
  Int.fract_lt_one _

/-- `eps` is positive. -/
theorem eps_pos : 0 < eps := by norm_num [eps]

/-- The clamp of a nonnegative divisor is positive. -/
theorem epsClamp_pos (b : ℚ) (hb : 0 ≤ b) : 0 < epsClamp b := by
  unfold epsClamp
  rw [if_pos hb]
  exact lt_of_lt_of_le eps_pos (le_max_right _ _)

/-- The clamp of a negative divisor is negative. -/
theorem epsClamp_neg (b : ℚ) (hb : ¬ 0 ≤ b) : epsClamp b < 0 := by
  unfold epsClamp
  rw [if_neg hb]
  exact lt_of_le_of_lt (min_le_right _ _) (by norm_num [eps])

/-- Guarded division of `0` is `0`. -/
theorem divE_zero (b : ℚ) : divE 0 b = 0 := zero_div _

/-- The guarded ray parameter toward the axis plane facing the ray
direction is nonnegative whenever the start point lies inside `[0,1]`. -/
theorem divE_plane_nonneg (p b : ℚ) (h0 : 0 ≤ p) (h1 : p ≤ 1) :
    0 ≤ divE ((if 0 ≤ b then 1 else 0) - p) b := by
  unfold divE
  by_cases hb : 0 ≤ b
  · rw [if_pos hb]
    exact div_nonneg (by linarith) (le_of_lt (epsClamp_pos b hb))
  · rw [if_neg hb]
    have hc : epsClamp b < 0 := epsClamp_neg b hb
    have hnum : (0:ℚ) ≤ -((0:ℚ) - p) := by linarith
    have := div_nonneg hnum (by linarith : (0:ℚ) ≤ -(epsClamp b))
    rwa [neg_div_neg_eq] at this

/-- C1: the uniform record handed to the GPU has exactly the field order
and types of the §3 parameter block — two 2-component float vectors, then
four scalar floats — and matches the `FakeInteriorMaterial` fields
one-for-one (same names, same types, same order). -/
theorem uniform_layout_matches_spec_block :
    FakeInteriorMaterialUniform.fieldLayout.map Prod.snd = specParamBlock ∧
    FakeInteriorMaterialUniform.fieldLayout = FakeInteriorMaterial.fieldLayout := by
  constructor <;> rfl

/-- C9: `as_bind_group_shader_type` returns a uniform whose six fields
equal the corresponding material fields exactly, and the result does not
depend on the `images` argument (for any two tables of any types, the
resulting uniforms agree). -/
theorem as_bind_group_shader_type_copies_fields :
    ∀ (m : FakeInteriorMaterial) {α β : Type} (images : α) (images' : β),
      (as_bind_group_shader_type m images).atlas_rooms = m.atlas_rooms ∧
      (as_bind_group_shader_type m images).rooms = m.rooms ∧
      (as_bind_group_shader_type m images).depth = m.depth ∧
      (as_bind_group_shader_type m images).room_seed = m.room_seed ∧
      (as_bind_group_shader_type m images).emission_seed = m.emission_seed ∧
      (as_bind_group_shader_type m images).emission_threshold = m.emission_threshold ∧
      as_bind_group_shader_type m images = as_bind_group_shader_type m images' := by
  intro m α β images images'
  refine ⟨rfl, rfl, rfl, rfl, rfl, rfl, rfl⟩

/-- C10: the `Default` instance yields parameters inside the documented
domains: `atlas_rooms = (1,1)` and `rooms = (1,1)` (components ≥ 1),
`depth = 0.5 ∈ (0,1]`, `room_seed = 1`, `emission_seed = 1`,
`emission_threshold = 0.5 ∈ [0,1]`; no divisor-field component is 0. -/
theorem default_material_in_documented_domains :
    FakeInteriorMaterial.default.atlas_rooms = (1, 1) ∧
    FakeInteriorMaterial.default.rooms = (1, 1) ∧
    FakeInteriorMaterial.default.depth = 1/2 ∧
    (0 < FakeInteriorMaterial.default.depth ∧ FakeInteriorMaterial.default.depth ≤ 1) ∧
    FakeInteriorMaterial.default.room_seed = 1 ∧
    FakeInteriorMaterial.default.emission_seed = 1 ∧
    FakeInteriorMaterial.default.emission_threshold = 1/2 ∧
    (0 ≤ FakeInteriorMaterial.default.emission_threshold ∧
      FakeInteriorMaterial.default.emission_threshold ≤ 1) ∧
    FakeInteriorMaterial.default.atlas_rooms.1 ≠ 0 ∧
    FakeInteriorMaterial.default.atlas_rooms.2 ≠ 0 ∧
    FakeInteriorMaterial.default.rooms.1 ≠ 0 ∧
    FakeInteriorMaterial.default.rooms.2 ≠ 0 ∧
    FakeInteriorMaterial.default.depth ≠ 0 := by
  refine ⟨rfl, rfl, rfl, ⟨by norm_num [FakeInteriorMaterial.default], by norm_num [FakeInteriorMaterial.default]⟩, rfl, rfl, rfl, ⟨by norm_num [FakeInteriorMaterial.default], by norm_num [FakeInteriorMaterial.default]⟩, ?_, ?_, ?_, ?_, ?_⟩ <;>
    norm_num [FakeInteriorMaterial.default, Vec2.new]

/-- The clamped divisor keeps magnitude at least `eps`. -/
theorem eps_le_abs_epsClamp (b : ℚ) : eps ≤ |epsClamp b| := by
  by_cases hb : 0 ≤ b
  · rw [abs_of_pos (epsClamp_pos b hb)]
    unfold epsClamp
    rw [if_pos hb]
    exact le_max_right _ _
  · rw [abs_of_neg (epsClamp_neg b hb)]
    have h2 : epsClamp b ≤ -eps := by
      unfold epsClamp
      rw [if_neg hb]
      exact min_le_right _ _
    linarith

/-- At `depth = 0` the virtual-box solve leaves a point of the unit cell
fixed: the `z`-plane parameter is `0` and both guarded lateral plane
parameters are nonnegative, so the nearest forward hit is the start. -/
theorem boxIntersect_zero_of_unit (p : Vec2) (d : ℚ × ℚ × ℚ)
    (hx0 : 0 ≤ p.1) (hx1 : p.1 ≤ 1) (hy0 : 0 ≤ p.2) (hy1 : p.2 ≤ 1) :
    boxIntersect 0 p d = p := by
  have htx := divE_plane_nonneg p.1 d.1 hx0 hx1
  have hty := divE_plane_nonneg p.2 d.2.1 hy0 hy1
  simp only [boxIntersect, neg_zero, divE_zero]
  rw [min_eq_left (le_min htx hty)]
  simp

/-- C2: both pseudo-random selections are deterministic pure functions:
for identical `(cell, room_seed)` the selected atlas cell index, and for
identical `(cell, emission_seed, emission_threshold)` the lit/unlit gate
decision, agree under any two render contexts (frame, draw order). -/
theorem selections_deterministic :
    ∀ (ctx ctx' : RenderCtx) (cell : ℤ × ℤ)
      (room_seed emission_seed emission_threshold : ℚ) (atlas_rooms : Vec2),
      atlasCellSelect ctx cell room_seed atlas_rooms
        = atlasCellSelect ctx' cell room_seed atlas_rooms ∧
      emissionLit ctx cell emission_seed emission_threshold
        = emissionLit ctx' cell emission_seed emission_threshold := by
  intro ctx ctx' cell rs es et ar
  exact ⟨rfl, rfl⟩

/-- C3: with `depth = 0` the virtual-box-intersection step maps every
cell-local UV produced by cell indexing to itself (identity parallax),
for every view direction. -/
theorem boxIntersect_depth_zero_identity :
    ∀ (uv rooms : Vec2) (d : ℚ × ℚ × ℚ),
      boxIntersect 0 (cellLocalUV uv rooms) d = cellLocalUV uv rooms := by
  intro uv rooms d
  exact boxIntersect_zero_of_unit _ d (Int.fract_nonneg _)
    (le_of_lt (Int.fract_lt_one _)) (Int.fract_nonneg _)
    (le_of_lt (Int.fract_lt_one _))

/-- C4: the emission hash lands in `[0,1)`, and the emissive
contribution is zeroed exactly when that hash exceeds
`emission_threshold` (given a nonzero scaled sample); otherwise the
sampled emissive value is passed through scaled by the intensity
multiplier. -/
theorem gatedEmission_zero_iff :
    ∀ (ctx : RenderCtx) (cell : ℤ × ℤ)
      (emission_seed emission_threshold intensity sample : ℚ),
      (0 ≤ emissionHash ctx cell emission_seed ∧
        emissionHash ctx cell emission_seed < 1) ∧
      (intensity * sample ≠ 0 →
        (gatedEmission ctx cell emission_seed emission_threshold intensity sample = 0 ↔
          emission_threshold < emissionHash ctx cell emission_seed)) ∧
      (¬ emission_threshold < emissionHash ctx cell emission_seed →
        gatedEmission ctx cell emission_seed emission_threshold intensity sample
          = intensity * sample) := by
  intro ctx cell es et it s
  refine ⟨⟨hash12_nonneg _ _ _ _, hash12_lt_one _ _ _ _⟩, ?_, ?_⟩
  · intro hns
    unfold gatedEmission
    by_cases h : et < emissionHash ctx cell es
    · simp [h]
    · simp [h, hns]
  · intro h
    unfold gatedEmission
    rw [if_neg h]

/-- Witness for C4 at the concrete cell `(0,0)` with seed `1`: with
threshold `1/2` the zeroing is equivalent to the hash exceeding `1/2`,
and with threshold `1` (which the hash, below `1`, cannot exceed) the
scaled sample `1 * 1` passes through. -/
theorem gatedEmission_zero_iff_witness :
    ((1:ℚ) * 1 ≠ 0 ∧
      (gatedEmission ⟨0, 0⟩ (0, 0) 1 (1/2) 1 1 = 0 ↔
        (1/2 : ℚ) < emissionHash ⟨0, 0⟩ (0, 0) 1)) ∧
    (¬ (1:ℚ) < emissionHash ⟨0, 0⟩ (0, 0) 1 ∧
      gatedEmission ⟨0, 0⟩ (0, 0) 1 1 1 1 = 1 * 1) :=
  ⟨⟨by norm_num,
    (gatedEmission_zero_iff ⟨0, 0⟩ (0, 0) 1 (1/2) 1 1).2.1 (by norm_num)⟩,
   ⟨not_lt.mpr (le_of_lt (hash12_lt_one ⟨0, 0⟩ 0 0 1)),
    (gatedEmission_zero_iff ⟨0, 0⟩ (0, 0) 1 1 1 1).2.2
      (not_lt.mpr (le_of_lt (hash12_lt_one ⟨0, 0⟩ 0 0 1)))⟩⟩

/-- C5: with `atlas_rooms = (1,1)` the computed atlas offset is the one
constant `(0,0)`, independent of the surface cell index and seed-driven
hash value: atlas selection collapses to the single available cell. -/
theorem atlasOffset_single_cell_constant :
    ∀ (ctx : RenderCtx) (cell : ℤ × ℤ) (room_seed : ℚ),
      atlasOffset ctx (Vec2.new 1 1) cell room_seed = Vec2.new 0 0 := by
  intro ctx cell seed
  simp only [atlasOffset, atlasCellSelect, Vec2.new, mul_one]
  rw [Int.floor_eq_zero_iff.mpr ⟨hash12_nonneg _ _ _ _, hash12_lt_one _ _ _ _⟩,
    Int.floor_eq_zero_iff.mpr ⟨hash12_nonneg _ _ _ _, hash12_lt_one _ _ _ _⟩]
  simp [divE_zero]

/-- C6: the routine computes one atlas coordinate and samples all three
texture layers at it: the base-color, normal-map and emissive sample
coordinates of every fragment are numerically identical, and equal the
composed atlas coordinate of the algorithm. -/
theorem atlas_coords_registered :
    ∀ (ctx : RenderCtx) (params : FakeInteriorMaterialUniform) (uv : Vec2)
      (d : ℚ × ℚ × ℚ) (baseColorTex normalTex emissiveTex : Vec2 → ℚ)
      (intensity : ℚ),
      (shadeFragment ctx params uv d baseColorTex normalTex emissiveTex intensity).colorUV
        = (shadeFragment ctx params uv d baseColorTex normalTex emissiveTex intensity).normalUV ∧
      (shadeFragment ctx params uv d baseColorTex normalTex emissiveTex intensity).normalUV
        = (shadeFragment ctx params uv d baseColorTex normalTex emissiveTex intensity).emissiveUV ∧
      (shadeFragment ctx params uv d baseColorTex normalTex emissiveTex intensity).colorUV
        = atlasCoord ctx params.atlas_rooms (cellIndex uv params.rooms)
            params.room_seed
            (boxIntersect params.depth (cellLocalUV uv params.rooms) d) := by
  intro ctx params uv d bt nt et it
  exact ⟨rfl, rfl, rfl⟩

/-- C7: every division of the routine goes through the guarded divisor
`epsClamp`, whose output is never zero and keeps magnitude at least
`eps`; the guarded quotient is therefore a well-defined finite rational
with `divE a b * epsClamp b = a`, for every input including degenerate
(zero) divisors. -/
theorem divisions_epsilon_guarded :
    ∀ (a b : ℚ),
      epsClamp b ≠ 0 ∧ eps ≤ |epsClamp b| ∧
      divE a b = a / epsClamp b ∧ divE a b * epsClamp b = a := by
  intro a b
  have habs : eps ≤ |epsClamp b| := eps_le_abs_epsClamp b
  have hne : epsClamp b ≠ 0 := abs_pos.mp (lt_of_lt_of_le eps_pos habs)
  refine ⟨hne, habs, rfl, ?_⟩
  unfold divE
  exact div_mul_cancel₀ a hne

/-- C8: cell indexing uses floor semantics: when `u * r` is exactly the
integer `k` (a cell boundary), the boundary itself resolves to cell `k`,
and every approach from above within the cell width (`0 < ε`,
`ε * r < 1`) also yields `k` — the one-sided limit from above agrees
with the value on the boundary. -/
theorem cellIndex_boundary_floor (u v r s ε : ℚ) (k : ℤ)
    (hb : u * r = (k : ℚ)) (hε : 0 < ε) (hεr : ε * r < 1) (hr : 0 < r) :
    (cellIndex (u, v) (r, s)).1 = k ∧ (cellIndex (u + ε, v) (r, s)).1 = k := by
  constructor
  · show (⌊u * r⌋ : ℤ) = k
    rw [hb, Int.floor_intCast]
  · show (⌊(u + ε) * r⌋ : ℤ) = k
    have hsum : (u + ε) * r = (k : ℚ) + ε * r := by rw [add_mul, hb]
    rw [hsum, Int.floor_int_add,
      Int.floor_eq_zero_iff.mpr ⟨mul_nonneg hε.le hr.le, hεr⟩, add_zero]

/-- Witness for C8 at the spec's own test point: `rooms.x = 6`, boundary
`u = 1/6` (so `u * r = 1`), approach step `ε = 1/100`: both the boundary
and the approach from above resolve to cell `1`. -/
theorem cellIndex_boundary_floor_witness :
    ((1/6 : ℚ) * 6 = ((1 : ℤ) : ℚ) ∧ (0:ℚ) < 1/100 ∧
      (1/100 : ℚ) * 6 < 1 ∧ (0:ℚ) < 6) ∧
    (cellIndex (1/6, 0) (6, 6)).1 = 1 ∧ (cellIndex (1/6 + 1/100, 0) (6, 6)).1 = 1 :=
  ⟨⟨by norm_num, by norm_num, by norm_num, by norm_num⟩,
   cellIndex_boundary_floor (1/6) 0 6 6 (1/100) 1
     (by norm_num) (by norm_num) (by norm_num) (by norm_num)⟩
